import Mathlib

/-!
Verification of the zapyt HTTP client core (src/utils.ts, src/types.ts,
src/index.ts): the Content-Type classifier, the response deserializer
dispatcher, the status-code error mapper, and the client constructor.

Modelling conventions:
* JavaScript strings are Lean `String`s; `String.prototype.split` with a
  one-character separator is embedded as `splitChar` on `List Char`, lifted
  to `jsSplit` on `String`.
* The web `Headers` object is a list of name/value pairs with
  case-insensitive lookup (`headersGet`).
* A JavaScript function that always `throw`s is embedded with result type
  `Except String _`, the `String` being the thrown `Error`'s message.
* JavaScript `undefined`/missing values are `Option.none`; the falsiness
  test `!x` on a possibly-undefined string is `jsFalsy`.
* The transport (`fetch`) is external: each verb method takes the
  `RawResponse` the transport produced as an explicit argument.  Body reads
  are deferred in the source (`data: () => getResponseType(response)`), so a
  verb call performs no body read; the `FetchResponse.data` field records
  which single body-read operation the deferred accessor will perform.
-/

/-- JavaScript `s.split(sep)` for a single-character separator, on the
character list of the string.  `"".split(sep)` is `[""]`, a leading or
trailing separator contributes an empty field, so the result is never
empty. -/
def splitChar (sep : Char) : List Char → List (List Char)
  | [] => [[]]
  | c :: cs =>
    if c = sep then [] :: splitChar sep cs
    else
      match splitChar sep cs with
      | [] => [[c]]
      | h :: t => (c :: h) :: t

/-- JavaScript `s.split(sep)` for a single-character separator, on `String`. -/
def jsSplit (sep : Char) (s : String) : List String :=
  (splitChar sep s.data).map (fun l => String.mk l)

/-- Case-insensitive comparison of two strings, character by character
(lower-casing both sides), as header names compare in the web Headers API. -/
def eqCaseInsensitive (a b : String) : Bool :=
  a.data.map Char.toLower == b.data.map Char.toLower

/-- Case-insensitive header lookup, the behaviour of `Headers.prototype.get`
restricted to what the classifier uses (a missing header yields `none`). -/
def headersGet (headers : List (String × String)) (name : String) : Option String :=
  (headers.find? (fun entry => eqCaseInsensitive entry.1 name)).map (fun entry => entry.2)

/-- The `ContentType` union from src/types.ts. -/
inductive ContentType
  | arrayBuffer
  | blob
  | bytes
  | text
  | json
  | formData
  | xml
  | html
  deriving DecidableEq, Repr

/-- JavaScript falsiness of a possibly-undefined string: `undefined` and the
empty string are falsy. -/
def jsFalsy : Option String → Bool
  | none => true
  | some s => s == ""

/-- The if-chain of `getContentType` (src/utils.ts) on the destructured
`type` and `subtype` fields: both falsy means no usable header, return text;
then the five case-sensitive table comparisons; any unmatched pair falls
through to text. -/
def classifyPair (type subtype : Option String) : ContentType :=
  if jsFalsy type && jsFalsy subtype then .text
  else if type == some "application" && subtype == some "json" then .json
  else if type == some "application" && subtype == some "bytes" then .bytes
  else if type == some "application" && subtype == some "form-data" then .formData
  else if type == some "application" && subtype == some "arraybuffer" then .arrayBuffer
  else if type == some "application" && subtype == some "blob" then .blob
  else .text

/-- The classifier `getContentType` from src/utils.ts.  It reads the
Content-Type header, keeps the part before the first `;`, splits that on
every `/` (JavaScript `split` splits on all occurrences; the destructuring
`[type, subtype]` keeps the first two fields), and runs the if-chain
(`classifyPair`) on the destructured pair. -/
def getContentType (headers : List (String × String)) : ContentType :=
  let contentType : Option String :=
    (headersGet headers "Content-Type").map (fun v => (jsSplit ';' v).headD "")
  let parts : List String := (contentType.map (fun ct => jsSplit '/' ct)).getD []
  classifyPair (parts.get? 0) (parts.get? 1)

/-- The fixed classification table of `getContentType` viewed as a lookup:
the five recognised (type, subtype) pairs, `none` on any other pair. -/
def tableLookup (type subtype : Option String) : Option ContentType :=
  if type == some "application" && subtype == some "json" then some .json
  else if type == some "application" && subtype == some "bytes" then some .bytes
  else if type == some "application" && subtype == some "form-data" then some .formData
  else if type == some "application" && subtype == some "arraybuffer" then some .arrayBuffer
  else if type == some "application" && subtype == some "blob" then some .blob
  else none

/-- The slash-separated fields `getContentType` derives from a header value:
drop everything from the first `;`, then split the rest on every `/`. -/
def mediaParts (v : String) : List String :=
  jsSplit '/' ((jsSplit ';' v).headD "")

/-- The error mapper `handleError` from src/utils.ts.  Every path throws, so
the result is always `Except.error` carrying the thrown message.  The status
text reaches the template through `statusText ?? "Unknown"`, so it is modelled
as `Option String`: `none` is JavaScript `null`/`undefined` and selects the
substitute text, while `some t` renders `t` verbatim. -/
def handleError (statusCode : Int) (statusText : Option String) : Except String Unit :=
  let st := statusText.getD "Unknown"
  if 400 ≤ statusCode ∧ statusCode ≤ 499 then
    .error ("Client error: [" ++ toString statusCode ++ "] (" ++ st ++ ")")
  else if 500 ≤ statusCode ∧ statusCode ≤ 599 then
    .error ("Server error: [" ++ toString statusCode ++ "] (" ++ st ++ ")")
  else
    .error ("Unknown error: [" ++ toString statusCode ++ "] (" ++ st ++ ")")

/-- The category-dependent start of a `handleError` message, up to the opening
bracket of the status code. -/
def errPrefix (statusCode : Int) : String :=
  if 400 ≤ statusCode ∧ statusCode ≤ 499 then "Client error: ["
  else if 500 ≤ statusCode ∧ statusCode ≤ 599 then "Server error: ["
  else "Unknown error: ["

/-- The private method `FetchClient.handleError` from the second revision of
the client in src/index.ts, embedded separately so the two revisions can be
compared.  Its body is line for line the same as the standalone
`handleError`. -/
def handleErrorMethod (statusCode : Int) (statusText : Option String) : Except String Unit :=
  let st := statusText.getD "Unknown"
  if 400 ≤ statusCode ∧ statusCode ≤ 499 then
    .error ("Client error: [" ++ toString statusCode ++ "] (" ++ st ++ ")")
  else if 500 ≤ statusCode ∧ statusCode ≤ 599 then
    .error ("Server error: [" ++ toString statusCode ++ "] (" ++ st ++ ")")
  else
    .error ("Unknown error: [" ++ toString statusCode ++ "] (" ++ st ++ ")")

/-- Scheme scanner for `canParseURL`: after the leading ASCII letter, scheme
characters are letters, digits, `+`, `-` or `.`, and a `:` must follow. -/
def schemeColon : List Char → Bool
  | [] => false
  | c :: rest =>
    if c = ':' then true
    else (c.isAlphanum || c = '+' || c = '-' || c = '.') && schemeColon rest

/-- Modelled from the spec: the platform builtin `URL.canParse` used by the
`FetchClient` constructor is not part of src/.  Section 7 of the spec
describes the check as "not parseable as an absolute URL"; an absolute URL
begins with a scheme — an ASCII letter followed by letters, digits, `+`, `-`
or `.` — terminated by `:`. -/
def canParseURL (s : String) : Bool :=
  match s.data with
  | [] => false
  | c :: rest => c.isAlpha && schemeColon rest

/-- The client: its only state is the base URL (src/index.ts). -/
structure FetchClient where
  baseUrl : String
  deriving DecidableEq, Repr

/-- The `FetchClient` constructor from src/index.ts: `new FetchClient(baseUrl)`
throws `Error("Invalid base URL")` when `URL.canParse(baseUrl)` is false, and
otherwise stores the base URL. -/
def makeFetchClient (baseUrl : String) : Except String FetchClient :=
  if canParseURL baseUrl then .ok ⟨baseUrl⟩
  else .error "Invalid base URL"

/-- The `FetchOptions` shape from src/types.ts (the optional header map). -/
structure FetchOptions where
  headers : Option (List (String × String))

/-- A raw transport response: the fields of the web `Response` object that the
client reads (`ok`, `status`, `statusText`, `headers`). -/
structure RawResponse where
  ok : Bool
  status : Int
  statusText : String
  headers : List (String × String)

/-- The one-shot body-read operations of the web `Response` object
(`response.json()`, `response.text()`, ...).  The deserializer selects exactly
one of these. -/
inductive BodyReadOp
  | jsonRead
  | textRead
  | blobRead
  | arrayBufferRead
  | bytesRead
  | formDataRead
  deriving DecidableEq, Repr

/-- The `switch (contentType)` dispatch inside `getResponseType`
(src/utils.ts): which body-read operation each classified kind selects.  The
JavaScript `default:` arm also reads text; the match here is exhaustive over
the closed `ContentType` enumeration, so the default arm has no separate
case. -/
def dispatchBodyRead : ContentType → BodyReadOp
  | .json => .jsonRead
  | .text => .textRead
  | .blob => .blobRead
  | .arrayBuffer => .arrayBufferRead
  | .bytes => .bytesRead
  | .formData => .formDataRead
  | .xml => .textRead
  | .html => .textRead

/-- The deserializer `getResponseType` from src/utils.ts: classify the
response's headers, then perform the single matching body read.  The model
returns which body-read operation is performed. -/
def getResponseType (response : RawResponse) : BodyReadOp :=
  dispatchBodyRead (getContentType response.headers)

/-- The `FetchResponse` shape from src/types.ts.  The `data` field is a
deferred accessor `() => getResponseType(response)`; the model records which
single body-read operation that accessor will perform when invoked. -/
structure FetchResponse where
  data : BodyReadOp
  status : Int
  statusText : String
  deriving DecidableEq, Repr

/-- The verb method `FetchClient.get` from src/index.ts.  The transport call
`await fetch(baseUrl + url, ...)` is external, so the raw response it produced
is an explicit argument.  When `ok` is false the method calls `handleError`,
which always throws, so the caller gets `Except.error`; otherwise it builds
the `FetchResponse` with the deferred body accessor.  No body read happens
during the call. -/
def FetchClient.get (client : FetchClient) (url : String) (options : Option FetchOptions)
    (response : RawResponse) : Except String FetchResponse := do
  let _fetchUrl := client.baseUrl ++ url
  let _headers := (options.map (fun o => o.headers)).getD none
  if !response.ok then
    handleError response.status (some response.statusText)
  pure ⟨getResponseType response, response.status, response.statusText⟩

/-- The verb method `FetchClient.post` from src/index.ts; the JSON-encoded
payload is passed to the external transport and does not affect the result. -/
def FetchClient.post (client : FetchClient) (url : String) (payload : String)
    (options : Option FetchOptions) (response : RawResponse) : Except String FetchResponse := do
  let _fetchUrl := client.baseUrl ++ url
  let _headers := (options.map (fun o => o.headers)).getD none
  let _body := payload
  if !response.ok then
    handleError response.status (some response.statusText)
  pure ⟨getResponseType response, response.status, response.statusText⟩

/-- The verb method `FetchClient.put` from src/index.ts. -/
def FetchClient.put (client : FetchClient) (url : String) (payload : String)
    (options : Option FetchOptions) (response : RawResponse) : Except String FetchResponse := do
  let _fetchUrl := client.baseUrl ++ url
  let _headers := (options.map (fun o => o.headers)).getD none
  let _body := payload
  if !response.ok then
    handleError response.status (some response.statusText)
  pure ⟨getResponseType response, response.status, response.statusText⟩

/-- The verb method `FetchClient.delete` from src/index.ts. -/
def FetchClient.delete (client : FetchClient) (url : String) (options : Option FetchOptions)
    (response : RawResponse) : Except String FetchResponse := do
  let _fetchUrl := client.baseUrl ++ url
  let _headers := (options.map (fun o => o.headers)).getD none
  if !response.ok then
    handleError response.status (some response.statusText)
  pure ⟨getResponseType response, response.status, response.statusText⟩

example : getContentType [("Content-Type", "application/json")] = ContentType.json := by decide
example : getContentType [("Content-Type", "application/json; charset=utf-8")] = ContentType.json := by decide
example : getContentType [("content-type", "application/bytes")] = ContentType.bytes := by decide
example : getContentType [] = ContentType.text := by decide
example : getContentType [("Content-Type", "text/plain")] = ContentType.text := by decide
example : getContentType [("Content-Type", "Application/JSON")] = ContentType.text := by decide
example : getContentType [("Content-Type", "application/json/extra")] = ContentType.json := by decide
example : getContentType [("Content-Type", "application")] = ContentType.text := by decide
example : getContentType [("Content-Type", "/json")] = ContentType.text := by decide
example : getContentType [("Content-Type", "")] = ContentType.text := by decide
example : handleError 404 (some "Not Found") = .error "Client error: [404] (Not Found)" := rfl
example : handleError 503 (some "Service Unavailable") = .error "Server error: [503] (Service Unavailable)" := rfl
example : handleError 300 (some "Multiple Choices") = .error "Unknown error: [300] (Multiple Choices)" := rfl
example : handleError 400 (some "") = .error "Client error: [400] ()" := rfl
example : handleError 400 none = .error "Client error: [400] (Unknown)" := rfl
example : canParseURL "https://api.example.com" = true := by decide
example : canParseURL "not-a-valid-url" = false := by decide
example : canParseURL "" = false := by decide
example :
    FetchClient.get ⟨"https://api.example.com"⟩ "/users/1" none ⟨false, 404, "Not Found", []⟩
      = Except.error "Client error: [404] (Not Found)" := rfl
example :
    FetchClient.get ⟨"https://api.example.com"⟩ "/users/1" none
        ⟨true, 200, "OK", [("Content-Type", "application/json")]⟩
      = Except.ok ⟨BodyReadOp.jsonRead, 200, "OK"⟩ := rfl

/-! Helper lemmas. -/

theorem handleError_always_error (c : Int) (st : Option String) :
    ∃ m, handleError c st = Except.error m := by
  simp only [handleError]
  split
  · exact ⟨_, rfl⟩
  split
  · exact ⟨_, rfl⟩
  · exact ⟨_, rfl⟩

theorem handleError_shape (c : Int) (st : Option String) :
    handleError c st
      = Except.error (errPrefix c ++ toString c ++ "] (" ++ st.getD "Unknown" ++ ")") := by
  by_cases h1 : 400 ≤ c ∧ c ≤ 499
  · simp [handleError, errPrefix, h1]
  by_cases h2 : 500 ≤ c ∧ c ≤ 599
  · simp [handleError, errPrefix, h1, h2]
  · simp [handleError, errPrefix, h1, h2]

theorem splitChar_not_mem (sep : Char) (l : List Char) (h : sep ∉ l) :
    splitChar sep l = [l] := by
  induction l with
  | nil => rfl
  | cons c cs ih =>
    have hc : ¬ c = sep := fun e => h (e ▸ List.mem_cons_self c cs)
    have hcs : sep ∉ cs := fun m => h (List.mem_cons_of_mem c m)
    simp only [splitChar, if_neg hc, ih hcs]

theorem splitChar_append_cons (sep : Char) (l1 l2 : List Char) (h : sep ∉ l1) :
    splitChar sep (l1 ++ sep :: l2) = l1 :: splitChar sep l2 := by
  induction l1 with
  | nil => simp [splitChar]
  | cons c cs ih =>
    have hc : ¬ c = sep := fun e => h (e ▸ List.mem_cons_self c cs)
    have hcs : sep ∉ cs := fun m => h (List.mem_cons_of_mem c m)
    show splitChar sep (c :: (cs ++ sep :: l2)) = (c :: cs) :: splitChar sep l2
    rw [show splitChar sep (c :: (cs ++ sep :: l2)) =
        (if c = sep then [] :: splitChar sep (cs ++ sep :: l2)
         else match splitChar sep (cs ++ sep :: l2) with
           | [] => [[c]]
           | h :: t => (c :: h) :: t) from rfl,
      if_neg hc, ih hcs]

theorem stringDataAppend (s t : String) : (s ++ t).data = s.data ++ t.data := by
  cases s
  cases t
  rfl

theorem stringMkData (s : String) : String.mk s.data = s := by
  cases s
  rfl

theorem jsSplit_strip_param (s p : String) (h : ';' ∉ s.data) :
    (jsSplit ';' (s ++ ";" ++ p)).headD "" = s := by
  have hd : (s ++ ";" ++ p).data = s.data ++ ';' :: p.data := by
    rw [stringDataAppend, stringDataAppend]
    simp
  simp only [jsSplit, hd, splitChar_append_cons ';' s.data p.data h, List.map_cons,
    List.headD_cons, stringMkData]

theorem jsSplit_no_sep (s : String) (h : ';' ∉ s.data) :
    (jsSplit ';' s).headD "" = s := by
  simp only [jsSplit, splitChar_not_mem ';' s.data h, List.map_cons, List.map_nil,
    List.headD_cons, stringMkData]

theorem jsFalsy_ne_application (a : Option String) (h : jsFalsy a = true) :
    (a == some "application") = false := by
  cases a with
  | none => rfl
  | some s =>
    simp only [jsFalsy, beq_iff_eq] at h
    subst h
    decide

theorem classifyPair_eq (a b : Option String) :
    classifyPair a b = (tableLookup a b).getD ContentType.text := by
  unfold classifyPair tableLookup
  by_cases hf : (jsFalsy a && jsFalsy b) = true
  · rw [if_pos hf, jsFalsy_ne_application a (Bool.and_elim_left hf)]
    simp
  · rw [if_neg hf]
    repeat' split <;> simp_all

theorem getContentType_eq (hs : List (String × String)) :
    getContentType hs =
      match headersGet hs "Content-Type" with
      | none => ContentType.text
      | some v =>
          (tableLookup ((mediaParts v).get? 0) ((mediaParts v).get? 1)).getD ContentType.text := by
  cases hv : headersGet hs "Content-Type" with
  | none =>
    simp only [getContentType, hv, Option.map_none', Option.getD_none]
    rfl
  | some v =>
    simp only [getContentType, hv, Option.map_some', Option.getD_some, mediaParts]
    exact classifyPair_eq _ _

/-! Claim theorems. -/

/-- C1 counterexample: the claim says any value with more than one slash,
such as application/json/extra, classifies as text; the code splits on every
slash and keeps only the first two fields, so this value classifies as
json. -/
theorem getContentType_multislash_counterexample :
    getContentType [("Content-Type", "application/json/extra")] = ContentType.json
  ∧ getContentType [("Content-Type", "application/json/extra")] ≠ ContentType.text := by
  decide

/-- C1 (amended): for every header map whose Content-Type lookup is absent or
whose value, after dropping everything from the first semicolon and splitting
the rest on every slash, has first two fields that do not form one of the five
table pairs, getContentType returns text.  This covers an absent header, a
stripped value without a slash or with an empty type or subtype half, and
unmatched pairs such as text/plain, text/html, or the case variant
Application/JSON; a value with more than one slash is classified by its first
two slash-separated fields. -/
theorem getContentType_default_text (hs : List (String × String))
    (h : ∀ v, headersGet hs "Content-Type" = some v →
        tableLookup ((mediaParts v).get? 0) ((mediaParts v).get? 1) = none) :
    getContentType hs = ContentType.text := by
  rw [getContentType_eq]
  cases hv : headersGet hs "Content-Type" with
  | none => rfl
  | some v =>
    show (tableLookup ((mediaParts v).get? 0) ((mediaParts v).get? 1)).getD ContentType.text
        = ContentType.text
    rw [h v hv]
    rfl

theorem getContentType_default_text_witness :
    getContentType [("Content-Type", "text/plain")] = ContentType.text :=
  getContentType_default_text [("Content-Type", "text/plain")] (by
    intro v hv
    have he : headersGet [("Content-Type", "text/plain")] "Content-Type" = some "text/plain" := by
      decide
    rw [he] at hv
    cases hv
    decide)

/-- C2: for every header map whose Content-Type value, after dropping
everything from the first semicolon, is exactly one of the five table
entries (case-sensitive), getContentType returns the matching kind. -/
theorem getContentType_table (hs : List (String × String)) (v : String)
    (hget : headersGet hs "Content-Type" = some v) :
    ((jsSplit ';' v).headD "" = "application/json" → getContentType hs = ContentType.json)
  ∧ ((jsSplit ';' v).headD "" = "application/bytes" → getContentType hs = ContentType.bytes)
  ∧ ((jsSplit ';' v).headD "" = "application/form-data" → getContentType hs = ContentType.formData)
  ∧ ((jsSplit ';' v).headD "" = "application/arraybuffer" → getContentType hs = ContentType.arrayBuffer)
  ∧ ((jsSplit ';' v).headD "" = "application/blob" → getContentType hs = ContentType.blob) := by
  refine ⟨?_, ?_, ?_, ?_, ?_⟩ <;> intro hstrip <;>
    rw [getContentType_eq] <;> simp only [hget, mediaParts, hstrip] <;> rfl

theorem getContentType_table_witness :
    getContentType [("Content-Type", "application/json")] = ContentType.json
  ∧ getContentType [("Content-Type", "application/bytes")] = ContentType.bytes
  ∧ getContentType [("Content-Type", "application/form-data")] = ContentType.formData
  ∧ getContentType [("Content-Type", "application/arraybuffer")] = ContentType.arrayBuffer
  ∧ getContentType [("Content-Type", "application/blob")] = ContentType.blob :=
  ⟨(getContentType_table _ "application/json" (by decide)).1 (by decide),
   (getContentType_table _ "application/bytes" (by decide)).2.1 (by decide),
   (getContentType_table _ "application/form-data" (by decide)).2.2.1 (by decide),
   (getContentType_table _ "application/arraybuffer" (by decide)).2.2.2.1 (by decide),
   (getContentType_table _ "application/blob" (by decide)).2.2.2.2 (by decide)⟩

/-- C3: handleError never returns normally; for 400-499 the thrown message is
exactly Client error: [code] (text), for 500-599 Server error: [code] (text),
and for every other code Unknown error: [code] (text). -/
theorem handleError_spec (c : Int) (t : String) :
    (400 ≤ c → c ≤ 499 →
      handleError c (some t) = Except.error ("Client error: [" ++ toString c ++ "] (" ++ t ++ ")"))
  ∧ (500 ≤ c → c ≤ 599 →
      handleError c (some t) = Except.error ("Server error: [" ++ toString c ++ "] (" ++ t ++ ")"))
  ∧ (¬ (400 ≤ c ∧ c ≤ 499) → ¬ (500 ≤ c ∧ c ≤ 599) →
      handleError c (some t) = Except.error ("Unknown error: [" ++ toString c ++ "] (" ++ t ++ ")"))
  ∧ (∀ st : Option String, handleError c st ≠ Except.ok ()) := by
  refine ⟨?_, ?_, ?_, ?_⟩
  · intro h1 h2
    rw [handleError_shape]
    simp [errPrefix, h1, h2]
  · intro h1 h2
    have hn : ¬ (400 ≤ c ∧ c ≤ 499) := by omega
    rw [handleError_shape]
    simp [errPrefix, hn, h1, h2]
  · intro h1 h2
    rw [handleError_shape]
    simp [errPrefix, h1, h2]
  · intro st
    obtain ⟨m, hm⟩ := handleError_always_error c st
    simp [hm]

theorem handleError_spec_witness :
    handleError 404 (some "Not Found")
      = Except.error ("Client error: [" ++ toString (404 : Int) ++ "] (" ++ "Not Found" ++ ")")
  ∧ handleError 503 (some "Service Unavailable")
      = Except.error ("Server error: [" ++ toString (503 : Int) ++ "] (" ++ "Service Unavailable" ++ ")")
  ∧ handleError 300 (some "Multiple Choices")
      = Except.error ("Unknown error: [" ++ toString (300 : Int) ++ "] (" ++ "Multiple Choices" ++ ")") :=
  ⟨(handleError_spec 404 "Not Found").1 (by decide) (by decide),
   (handleError_spec 503 "Service Unavailable").2.1 (by decide) (by decide),
   (handleError_spec 300 "Multiple Choices").2.2.1 (by decide) (by decide)⟩

/-- C4: for each verb method, when the transport response's ok flag is false
the call returns the categorized error produced by handleError and the caller
never receives a FetchResponse; body reads are deferred, so none is performed
on the error path. -/
theorem verbs_error_on_not_ok (client : FetchClient) (url payload : String)
    (options : Option FetchOptions) (r : RawResponse) (h : r.ok = false) :
    ∃ msg, handleError r.status (some r.statusText) = Except.error msg
      ∧ client.get url options r = Except.error msg
      ∧ client.post url payload options r = Except.error msg
      ∧ client.put url payload options r = Except.error msg
      ∧ client.delete url options r = Except.error msg := by
  obtain ⟨m, hm⟩ := handleError_always_error r.status (some r.statusText)
  refine ⟨m, hm, ?_, ?_, ?_, ?_⟩ <;>
    simp [FetchClient.get, FetchClient.post, FetchClient.put, FetchClient.delete, h, hm]

theorem verbs_error_on_not_ok_witness :
    FetchClient.get ⟨"https://api.example.com"⟩ "/users/1" none ⟨false, 404, "Not Found", []⟩
      = Except.error "Client error: [404] (Not Found)" := by
  obtain ⟨m, hm, hg, hpo, hpu, hd⟩ :=
    verbs_error_on_not_ok ⟨"https://api.example.com"⟩ "/users/1" "" none
      ⟨false, 404, "Not Found", []⟩ rfl
  have hm2 : handleError 404 (some "Not Found") = Except.error m := hm
  have he : handleError 404 (some "Not Found")
      = Except.error "Client error: [404] (Not Found)" := rfl
  have h2 := he.symm.trans hm2
  injection h2 with h3
  rw [← h3] at hg
  exact hg

/-- C5: the deferred accessor performs exactly the one body-read operation
matching the classified kind: json invokes the JSON read; text, xml and html
invoke the text read; blob, arrayBuffer, bytes and formData invoke their
respective reads; nothing else is reachable in the closed enumeration. -/
theorem getResponseType_dispatch (response : RawResponse) :
    getResponseType response = dispatchBodyRead (getContentType response.headers)
  ∧ dispatchBodyRead ContentType.json = BodyReadOp.jsonRead
  ∧ dispatchBodyRead ContentType.text = BodyReadOp.textRead
  ∧ dispatchBodyRead ContentType.xml = BodyReadOp.textRead
  ∧ dispatchBodyRead ContentType.html = BodyReadOp.textRead
  ∧ dispatchBodyRead ContentType.blob = BodyReadOp.blobRead
  ∧ dispatchBodyRead ContentType.arrayBuffer = BodyReadOp.arrayBufferRead
  ∧ dispatchBodyRead ContentType.bytes = BodyReadOp.bytesRead
  ∧ dispatchBodyRead ContentType.formData = BodyReadOp.formDataRead :=
  ⟨rfl, rfl, rfl, rfl, rfl, rfl, rfl, rfl, rfl⟩

/-- C6: classification ignores trailing parameters: whenever one header map
carries the Content-Type value s followed by a semicolon and any suffix p, and
another carries s itself (s containing no semicolon), getContentType agrees on
the two maps. -/
theorem getContentType_param_insensitive (hs hs2 : List (String × String)) (s p : String)
    (hsep : ';' ∉ s.data)
    (h1 : headersGet hs "Content-Type" = some (s ++ ";" ++ p))
    (h2 : headersGet hs2 "Content-Type" = some s) :
    getContentType hs = getContentType hs2 := by
  rw [getContentType_eq, getContentType_eq]
  simp only [h1, h2, mediaParts, jsSplit_strip_param s p hsep, jsSplit_no_sep s hsep]

theorem getContentType_param_insensitive_witness :
    getContentType [("Content-Type", "application/json; charset=utf-8")]
      = getContentType [("Content-Type", "application/json")] :=
  getContentType_param_insensitive
    [("Content-Type", "application/json; charset=utf-8")]
    [("Content-Type", "application/json")]
    "application/json" " charset=utf-8"
    (by decide) (by decide) (by decide)

/-- C7: for failure-range codes with an explicitly provided empty status text
the message renders the empty text verbatim as an empty pair of parentheses,
and the substitute text Unknown appears exactly when the status text is
absent; a provided text t is always embedded verbatim. -/
theorem handleError_empty_statusText (c : Int) :
    handleError c (some "") = Except.error (errPrefix c ++ toString c ++ "] (" ++ "" ++ ")")
  ∧ handleError c none = Except.error (errPrefix c ++ toString c ++ "] (" ++ "Unknown" ++ ")")
  ∧ (∀ t : String, handleError c (some t) = Except.error (errPrefix c ++ toString c ++ "] (" ++ t ++ ")"))
  ∧ (400 ≤ c → c ≤ 499 → errPrefix c = "Client error: [")
  ∧ (500 ≤ c → c ≤ 599 → errPrefix c = "Server error: [") := by
  refine ⟨handleError_shape c (some ""), handleError_shape c none,
    fun t => handleError_shape c (some t), ?_, ?_⟩
  · intro h1 h2
    simp [errPrefix, h1, h2]
  · intro h1 h2
    have hn : ¬ (400 ≤ c ∧ c ≤ 499) := by omega
    simp [errPrefix, hn, h1, h2]

theorem handleError_empty_statusText_witness :
    handleError 400 (some "") = Except.error "Client error: [400] ()"
  ∧ handleError 400 none = Except.error "Client error: [400] (Unknown)"
  ∧ errPrefix 400 = "Client error: [" :=
  ⟨(handleError_empty_statusText 400).1,
   (handleError_empty_statusText 400).2.1,
   (handleError_empty_statusText 400).2.2.2.1 (by decide) (by decide)⟩

/-- C8: constructing a FetchClient with a base URL that is not parseable as an
absolute URL fails immediately with the configuration error, before any
request exists; with a parseable base URL construction succeeds and stores the
base URL unchanged. -/
theorem makeFetchClient_spec (baseUrl : String) :
    (canParseURL baseUrl = false → makeFetchClient baseUrl = Except.error "Invalid base URL")
  ∧ (canParseURL baseUrl = true → makeFetchClient baseUrl = Except.ok ⟨baseUrl⟩) := by
  constructor <;> intro h <;> simp [makeFetchClient, h]

theorem makeFetchClient_spec_witness :
    makeFetchClient "not-a-valid-url" = Except.error "Invalid base URL"
  ∧ makeFetchClient "" = Except.error "Invalid base URL"
  ∧ makeFetchClient "https://api.example.com" = Except.ok ⟨"https://api.example.com"⟩ :=
  ⟨(makeFetchClient_spec "not-a-valid-url").1 (by decide),
   (makeFetchClient_spec "").1 (by decide),
   (makeFetchClient_spec "https://api.example.com").2 (by decide)⟩

/-- C9: getContentType never returns xml or html for any header map, even
though both are members of the ContentType enumeration and are handled as
fallback branches in the deserializer dispatch. -/
theorem getContentType_never_xml_html (hs : List (String × String)) :
    getContentType hs ≠ ContentType.xml ∧ getContentType hs ≠ ContentType.html := by
  rw [getContentType_eq]
  cases headersGet hs "Content-Type" with
  | none => exact ⟨by decide, by decide⟩
  | some v =>
    refine ⟨?_, ?_⟩
    · show (tableLookup ((mediaParts v).get? 0) ((mediaParts v).get? 1)).getD ContentType.text
          ≠ ContentType.xml
      unfold tableLookup
      repeat' split
      all_goals decide
    · show (tableLookup ((mediaParts v).get? 0) ((mediaParts v).get? 1)).getD ContentType.text
          ≠ ContentType.html
      unfold tableLookup
      repeat' split
      all_goals decide

/-- C10: the standalone handleError from src/utils.ts and the private method
FetchClient.handleError from the second revision in src/index.ts are
extensionally equal — identical thrown message on every input — and neither
ever returns normally. -/
theorem handleError_revisions_agree (c : Int) (st : Option String) :
    handleError c st = handleErrorMethod c st
  ∧ handleError c st ≠ Except.ok ()
  ∧ handleErrorMethod c st ≠ Except.ok () := by
  obtain ⟨m, hm⟩ := handleError_always_error c st
  refine ⟨rfl, by simp [hm], ?_⟩
  have hm2 : handleErrorMethod c st = Except.error m := hm
  simp [hm2]
